import Mathlib

/-!
Verification development for the `connectedk8s` onboarding orchestration of
this repository (`src/connectedk8s/azext_connectedk8s/custom.py`).

The Python module is shallowly embedded: pure helper functions become Lean
functions over `String`/`List`; the orchestration functions
(`create_connectedk8s`, `delete_connectedk8s`, `update_agents`,
`merge_kubernetes_configurations`) become functions from an explicit
environment (the outcomes of the external kubernetes/helm/ARM calls) to a
trace of issued external calls together with an `Except`-style result.
Each definition carries a comment naming the source lines it embeds.
-/

deriving instance DecidableEq for Except

namespace ConnectedK8s

/-- Typed errors raised by the orchestration (`raise CLIError` sites in
`custom.py`, tagged by the accompanying telemetry fault type). -/
inductive Err
  | invalidAADProfile
  | clusterAlreadyOnboarded
  | resourceAlreadyExists
  | configMapReadFailed
  | createFailed
  | helmInstallFailed
  | helmDeleteFailed
  | proxyKubeconfig
  | badDeleteRequest
  | deleteFailed
  | noParam
  | enableProxyConflict
  | conflictingEntry
  | loadKubeconfigFailed
  | helmCheckFailed
  | resourceDoesNotExist
  | updateAgentFailed
  | proxyCertPathNotFound
deriving Repr, DecidableEq

/-- External calls issued by the orchestration, in order.  `remoteGet`,
`remoteCreate` (a PUT of the connected-cluster resource, carrying the agent
public key certificate placed in the request payload), `remoteDelete` and
`rgCreate` are control-plane REST calls; `helmDelete`/`helmInstall`/
`helmUpgrade`/`helmCheck` are helm subprocess invocations; `loadKubeconfig`
is the `config.load_kube_config` call. -/
inductive Event
  | remoteGet (rg name : String)
  | remoteCreate (rg name cert : String)
  | remoteDelete (rg name : String)
  | rgCreate (rg : String)
  | helmDelete (ns : String)
  | helmInstall
  | helmUpgrade
  | helmCheck
  | loadKubeconfig
deriving Repr, DecidableEq

/-- Is the event a remote (control-plane) create call? -/
def Event.isRemoteCreate : Event → Bool
  | .remoteCreate _ _ _ => true
  | _ => false

/-- Is the event a remote (control-plane) delete call? -/
def Event.isRemoteDelete : Event → Bool
  | .remoteDelete _ _ => true
  | _ => false

/-- Is the event a helm release deletion (local agent teardown)? -/
def Event.isHelmDelete : Event → Bool
  | .helmDelete _ => true
  | _ => false

/-! ## Small string helpers shared by several embedded functions -/

/-- Python single-character `str.replace(old, new)`: every occurrence of the
character `old` is replaced by the character list `new`. -/
def replaceChar : List Char → Char → List Char → List Char
  | [], _, _ => []
  | c :: cs, old, new => (if c = old then new else [c]) ++ replaceChar cs old new

/-- Is the first list a prefix of the second? -/
def isPrefixChars : List Char → List Char → Bool
  | [], _ => true
  | _ :: _, [] => false
  | a :: as, b :: bs => a = b && isPrefixChars as bs

/-- Python `sub in s` (equivalently `s.find(sub) != -1`): does `pat` occur
as a contiguous run inside the character list? -/
def containsSub : List Char → List Char → Bool
  | [], pat => pat.isEmpty
  | c :: rest, pat => isPrefixChars pat (c :: rest) || containsSub rest pat

/-- Python `str.lower()` (character-wise ASCII lowering, which is what the
resource-group and cluster names use). -/
def lowerStr (s : String) : String :=
  String.mk (s.data.map Char.toLower)

/-! ## `escape_proxy_settings` (custom.py lines 372-377) -/

/-- `escape_proxy_settings(proxy_setting)`: `None` becomes `""`; otherwise
`,` is replaced by `\,` and then `/` by `\/` (lines 372-377). -/
def escape_proxy_settings (proxy_setting : Option String) : String :=
  match proxy_setting with
  | none => ""
  | some s => String.mk (replaceChar (replaceChar s.data ',' ['\\', ',']) '/' ['\\', '/'])

/-- The spec's description of the escaped form ("the input with each `,` or
`/` preceded by a single backslash and every other character unchanged"),
written directly from the spec's words for comparison with
`escape_proxy_settings`. -/
def escapeSpecL : List Char → List Char
  | [] => []
  | c :: cs => (if c = ',' ∨ c = '/' then ['\\', c] else [c]) ++ escapeSpecL cs

/-! ## `get_kubernetes_distro` (custom.py lines 493-524) -/

/-- Association lookup for a Python string-keyed dict. -/
def lookupStr : List (String × String) → String → Option String
  | [], _ => none
  | (k, v) :: rest, key => if k = key then some v else lookupStr rest key

/-- Python `if d.get(key):` — truthy iff the key is present with a non-empty
value. -/
def getTruthy (m : List (String × String)) (key : String) : Bool :=
  match lookupStr m key with
  | some v => v != ""
  | none => false

/-- The first node's identity facts read at lines 498-500: its labels, its
annotations, and `spec.provider_id` (which may be Python `None`). -/
structure NodeInfo where
  labels : List (String × String)
  annots : List (String × String)
  provider_id : Option String
deriving Repr, DecidableEq

/-- `str(provider_id)`: Python renders `None` as the string `"None"`
(line 499 applies `str` before `startswith`). -/
def providerIdStr : Option String → String
  | none => "None"
  | some s => s

/-- `get_kubernetes_distro(configuration)` (lines 493-524).  The argument is
the outcome of `list_node()`: `none` models the query raising (the
`except` branch returns `"generic"`); `some items` is the node list. -/
def get_kubernetes_distro (queryResult : Option (List NodeInfo)) : String :=
  match queryResult with
  | none => "generic"
  | some [] => "generic"
  | some (node :: _) =>
    if getTruthy node.labels "node.openshift.io/os_id" then "openshift"
    else if getTruthy node.labels "kubernetes.azure.com/node-image-version" then "aks"
    else if getTruthy node.labels "cloud.google.com/gke-nodepool"
            || getTruthy node.labels "cloud.google.com/gke-os-distribution" then "gke"
    else if getTruthy node.labels "eks.amazonaws.com/nodegroup" then "eks"
    else if getTruthy node.labels "minikube.k8s.io/version" then "minikube"
    else if (providerIdStr node.provider_id).startsWith "kind://" then "kind"
    else if (providerIdStr node.provider_id).startsWith "k3s://" then "k3s"
    else if getTruthy node.annots "rke.cattle.io/external-ip"
            || getTruthy node.annots "rke.cattle.io/internal-ip" then "rancher_rke"
    else if (providerIdStr node.provider_id).startsWith "moc://" then "generic"
    else "generic"

/-! ## `get_aad_profile` (custom.py lines 673-751) -/

/-- The AAD profile triple (`ConnectedClusterAADProfile`). -/
structure AADProfile where
  server_app_id : String
  client_app_id : String
  tenant_id : String
deriving Repr, DecidableEq

/-- Python `if cli_value:`-guarded override (lines 723-731): a command-line
value replaces the retrieved one only when it is truthy (not `None`, not
empty). -/
def overrideField (retrieved : String) (cli : Option String) : String :=
  match cli with
  | none => retrieved
  | some v => if v = "" then retrieved else v

/-- The override-and-validate core of `get_aad_profile` (lines 723-751),
taking the triple retrieved from the kubeconfig user entry and the optional
command-line overrides.  Line 733 of the source tests
`retrieved_aad_client_app_id != ""` twice; the server app id is never
tested there. -/
def get_aad_profile_core (retrieved_server retrieved_client retrieved_tenant : String)
    (aad_server_app_id aad_client_app_id aad_tenant_id : Option String) :
    Except Err (AADProfile × Bool) :=
  let s := overrideField retrieved_server aad_server_app_id
  let c := overrideField retrieved_client aad_client_app_id
  let t := overrideField retrieved_tenant aad_tenant_id
  if c ≠ "" ∧ c ≠ "" ∧ t ≠ "" then
    .ok (⟨s, c, t⟩, true)
  else if c = "" ∧ s = "" then
    .ok (⟨s, c, ""⟩, false)
  else
    .error .invalidAADProfile

/-! ## `check_proxy_kubeconfig` (custom.py lines 622-627) -/

/-- `check_proxy_kubeconfig`: true iff the resolved server address contains
the cluster-connect proxy marker (`find(...) == -1` means absent). -/
def check_proxy_kubeconfig (server_address : String) : Bool :=
  if containsSub server_address.data ".k8sconnect.azure.".data = false then false else true

/-! ## `create_connectedk8s` (custom.py lines 48-295, decision phase from
line 196)

The function's prefix (lines 48-193: argument validation, kubeconfig
loading, distro/infra heuristics, helm presence and version checks) issues
no connected-cluster or resource-group create/delete call; it either aborts
or falls through unchanged.  The model below embeds the decision phase,
lines 196-295, for invocations whose prefix succeeded.  Outcomes of the
external calls are supplied by `CreateEnv`. -/

/-- Lookup of a connected-cluster resource on the control plane
(`client.get(resource_group_name, cluster_name)`); the stored value is the
resource's `agent_public_key_certificate`. -/
def lookupRemote : List ((String × String) × String) → String → String → Option String
  | [], _, _ => none
  | (k, v) :: rest, rg, name => if k = (rg, name) then some v else lookupRemote rest rg name

/-- Outcomes of the external calls made by the decision phase of
`create_connectedk8s`. -/
structure CreateEnv where
  /-- `get_release_namespace` (line 196): namespace of an existing
  `azure-arc` helm release, if any. -/
  releaseNamespace : Option String
  /-- `read_namespaced_config_map('azure-clusterconfig', 'azure-arc')`
  (line 201): the recorded `(AZURE_RESOURCE_GROUP, AZURE_RESOURCE_NAME)`;
  `none` models the read raising (line 203 aborts). -/
  configmap : Option (String × String)
  /-- The connected-cluster resources present on the control plane, keyed by
  `(resource group, cluster name)`, valued by their agent public key
  certificate. -/
  remote : List ((String × String) × String)
  /-- `resource_group_exists` (line 240) for the requested resource group. -/
  rgExists : Bool
  /-- The base64 public key of the freshly generated key pair
  (lines 264-276). -/
  freshKey : String
  /-- Whether the remote PUT (`create_cc_resource`, lines 218 and 288)
  succeeds; on failure `arm_exception_handler` re-raises. -/
  putOk : Bool
  /-- Whether `delete_arc_agents` (line 228) succeeds; on failure it
  raises. -/
  helmDeleteOk : Bool
  /-- Whether `helm_install_release` (line 291) succeeds. -/
  helmInstallOk : Bool
deriving Repr, DecidableEq

/-- Lines 239-295: resource-group creation if absent, fresh key pair, PUT of
the request payload carrying the fresh public key, then the helm install of
the agents. -/
def create_tail (env : CreateEnv) (rg name : String) (evs : List Event) :
    List Event × Except Err Unit :=
  let evs := evs ++ (if env.rgExists then [] else [Event.rgCreate rg])
  let evs := evs ++ [Event.remoteCreate rg name env.freshKey]
  if env.putOk then
    let evs := evs ++ [Event.helmInstall]
    if env.helmInstallOk then (evs, .ok ()) else (evs, .error .helmInstallFailed)
  else (evs, .error .createFailed)

/-- Decision phase of `create_connectedk8s` (lines 196-295).  With an
existing release, the config map is read and
`connected_cluster_exists(client, configmap_rg, configmap_name)` (line 208)
decides: if the recorded resource exists remotely, a case-insensitive
identity match leads to the re-put (fetch the existing certificate, PUT,
fall through to the tail) while a mismatch raises
`ClusterAlreadyOnboarded`; if it does not exist, the agents are deleted and
the tail runs.  With no release, an existing resource under the requested
identity raises `ResourceAlreadyExists` (line 230). -/
def create_connectedk8s (env : CreateEnv) (rg name : String) :
    List Event × Except Err Unit :=
  match env.releaseNamespace with
  | some ns =>
    match env.configmap with
    | none => ([], .error .configMapReadFailed)
    | some (crg, cname) =>
      match lookupRemote env.remote crg cname with
      | some cert =>
        if lowerStr crg = lowerStr rg ∧ lowerStr cname = lowerStr name then
          let evs := [Event.remoteGet crg cname, Event.remoteGet crg cname,
                      Event.remoteCreate rg name cert]
          if env.putOk then create_tail env rg name evs
          else (evs, .error .createFailed)
        else
          ([Event.remoteGet crg cname], .error .clusterAlreadyOnboarded)
      | none =>
        let evs := [Event.remoteGet crg cname, Event.helmDelete ns]
        if env.helmDeleteOk then create_tail env rg name evs
        else (evs, .error .helmDeleteFailed)
  | none =>
    match lookupRemote env.remote rg name with
    | some _ => ([Event.remoteGet rg name], .error .resourceAlreadyExists)
    | none => create_tail env rg name [Event.remoteGet rg name]

/-! ## `helm_install_release` argument list (custom.py lines 890-926) -/

/-- The helm argument list built by `helm_install_release` (lines 894-926).
The proxy parameters arrive already escaped (the caller escapes them at
lines 98-104); each non-empty one contributes a single
`--set key=value` pair by string concatenation. -/
def helm_install_release_args (chart_path subscription_id kubernetes_distro kubernetes_infra
    resource_group_name cluster_name location onboarding_tenant_id private_key_pem : String)
    (http_proxy https_proxy no_proxy proxy_cert : String)
    (kube_config kube_context : Option String) (no_wait : Bool)
    (values_file : Option String) (extension_operator_enabled : Bool)
    (cloud_name : String) : List String :=
  ["helm", "upgrade", "--install", "azure-arc", chart_path,
   "--set", "global.subscriptionId=" ++ subscription_id,
   "--set", "global.kubernetesDistro=" ++ kubernetes_distro,
   "--set", "global.kubernetesInfra=" ++ kubernetes_infra,
   "--set", "global.resourceGroupName=" ++ resource_group_name,
   "--set", "global.resourceName=" ++ cluster_name,
   "--set", "global.location=" ++ location,
   "--set", "global.tenantId=" ++ onboarding_tenant_id,
   "--set", "global.onboardingPrivateKey=" ++ private_key_pem,
   "--set", "systemDefaultValues.spnOnboarding=false",
   "--set", "systemDefaultValues.clusterconnect-agent.enabled=true",
   "--set", "systemDefaultValues.extensionoperator.enabled="
              ++ (if extension_operator_enabled then "True" else "False"),
   "--set", "global.azureEnvironment=" ++ cloud_name,
   "--output", "json"]
  ++ (match values_file with | some f => ["-f", f] | none => [])
  ++ (if https_proxy ≠ "" then ["--set", "global.httpsProxy=" ++ https_proxy] else [])
  ++ (if http_proxy ≠ "" then ["--set", "global.httpProxy=" ++ http_proxy] else [])
  ++ (if no_proxy ≠ "" then ["--set", "global.noProxy=" ++ no_proxy] else [])
  ++ (if proxy_cert ≠ "" then ["--set-file", "global.proxyCert=" ++ proxy_cert] else [])
  ++ (if https_proxy ≠ "" ∨ http_proxy ≠ "" ∨ no_proxy ≠ "" then
        ["--set", "global.isProxyEnabled=True"] else [])
  ++ (match kube_config with | some k => ["--kubeconfig", k] | none => [])
  ++ (match kube_context with | some k => ["--kube-context", k] | none => [])
  ++ (if no_wait then [] else ["--wait"])

/-! ## `delete_connectedk8s` (custom.py lines 794-862) -/

/-- Outcomes of the external calls made by `delete_connectedk8s`. -/
structure DeleteEnv where
  /-- The server address of the kubeconfig's active cluster, as resolved by
  `get_server_address` (lines 591-619) for `check_proxy_kubeconfig`. -/
  serverAddress : String
  /-- `get_release_namespace` (line 835). -/
  releaseNamespace : Option String
  /-- The config-map read (line 843): recorded `(rg, name)`; `none` models
  the read raising. -/
  configmap : Option (String × String)
  /-- Whether `delete_cc_resource` succeeds. -/
  deleteOk : Bool
  /-- Whether `delete_arc_agents` succeeds. -/
  helmDeleteOk : Bool
deriving Repr, DecidableEq

/-- `delete_connectedk8s` (lines 794-862).  The proxy-kubeconfig check
(line 816) runs first; without a release the resource is deleted directly
(line 837); with a release the config map identity must match the request
(line 849), the resource is deleted (line 851) and then the agents
(line 862); a mismatch raises (line 856). -/
def delete_connectedk8s (env : DeleteEnv) (rg name : String) :
    List Event × Except Err Unit :=
  if check_proxy_kubeconfig env.serverAddress then ([], .error .proxyKubeconfig)
  else
    match env.releaseNamespace with
    | none =>
      if env.deleteOk then ([Event.remoteDelete rg name], .ok ())
      else ([Event.remoteDelete rg name], .error .deleteFailed)
    | some ns =>
      match env.configmap with
      | none => ([], .error .configMapReadFailed)
      | some (crg, cname) =>
        if lowerStr crg = lowerStr rg ∧ lowerStr cname = lowerStr name then
          if env.deleteOk then
            if env.helmDeleteOk then
              ([Event.remoteDelete rg name, Event.helmDelete ns], .ok ())
            else ([Event.remoteDelete rg name, Event.helmDelete ns], .error .helmDeleteFailed)
          else ([Event.remoteDelete rg name], .error .deleteFailed)
        else ([], .error .badDeleteRequest)

/-! ## `update_agents` (custom.py lines 1205-1370) -/

/-- Python single-character replace applied to the proxy certificate path:
`proxy_cert.replace('\\', r'\\\\')` (line 1232). -/
def escape_proxy_cert (cert : String) : String :=
  String.mk (replaceChar cert.data '\\' ['\\', '\\', '\\', '\\'])

/-- Outcomes of the external calls made by `update_agents` after its
parameter validation. -/
structure UpdateEnv where
  /-- `os.path.exists(proxy_cert)` (line 1226) for a non-empty cert path. -/
  certExists : Bool
  /-- Whether `config.load_kube_config` (line 1260) succeeds. -/
  loadOk : Bool
  /-- Whether the helm presence/version checks (lines 1277-1286) pass. -/
  helmOk : Bool
  /-- `connected_cluster_exists` (line 1289) for the requested identity. -/
  remoteHas : Bool
  /-- Whether the final `helm upgrade` (line 1361) succeeds. -/
  upgradeOk : Bool
deriving Repr, DecidableEq

/-- `update_agents` (lines 1205-1370): proxy parameters are escaped
(lines 1217-1223), the cert path is checked and escaped (lines 1226-1232),
then the no-parameter (line 1234) and proxy/disable-proxy conflict
(line 1237) validations run — all before the kubeconfig is loaded
(line 1260), helm is invoked (line 1277 on) or any control-plane call is
made (line 1289 on).  The remainder is collapsed to its event sequence. -/
def update_agents (env : UpdateEnv) (rg name : String)
    (https_proxy http_proxy no_proxy proxy_cert : String) (disable_proxy : Bool) :
    List Event × Except Err Unit :=
  let https := escape_proxy_settings (some https_proxy)
  let http := escape_proxy_settings (some http_proxy)
  let nop := escape_proxy_settings (some no_proxy)
  if proxy_cert ≠ "" ∧ ¬env.certExists then ([], .error .proxyCertPathNotFound)
  else
    let cert := escape_proxy_cert proxy_cert
    if https = "" ∧ http = "" ∧ nop = "" ∧ cert = "" ∧ ¬disable_proxy then
      ([], .error .noParam)
    else if (https ≠ "" ∨ http ≠ "" ∨ nop ≠ "" ∨ cert ≠ "") ∧ disable_proxy then
      ([], .error .enableProxyConflict)
    else
      if ¬env.loadOk then ([Event.loadKubeconfig], .error .loadKubeconfigFailed)
      else if ¬env.helmOk then
        ([Event.loadKubeconfig, Event.helmCheck], .error .helmCheckFailed)
      else if ¬env.remoteHas then
        ([Event.loadKubeconfig, Event.helmCheck, Event.remoteGet rg name],
         .error .resourceDoesNotExist)
      else if env.upgradeOk then
        ([Event.loadKubeconfig, Event.helmCheck, Event.remoteGet rg name,
          Event.helmUpgrade], .ok ())
      else
        ([Event.loadKubeconfig, Event.helmCheck, Event.remoteGet rg name,
          Event.helmUpgrade], .error .updateAgentFailed)

/-! ## Kubeconfig merge: `merge_kubernetes_configurations` (lines 1091-1146)
and `handle_merge` (lines 1149-1176)

A kubeconfig entry (one element of the `clusters`/`users`/`contexts` YAML
lists) is modelled by its `name`, the `context.user` field (read by the
admin-context rename; it is simply part of the mapping for the other two
lists) and the remainder of the mapping collapsed into `content`.  Python
`==` on the dicts is `Entry` equality. -/

/-- One named entry of a kubeconfig list. -/
structure Entry where
  name : String
  user : String
  content : String
deriving Repr, DecidableEq

/-- A kubeconfig document: the three entry lists (each possibly YAML `null`)
and the `current-context` pointer. -/
structure KubeConfig where
  clusters : Option (List Entry)
  users : Option (List Entry)
  contexts : Option (List Entry)
  currentContext : String
deriving Repr, DecidableEq

/-- Python `list.remove(x)`: removes the first element equal to `x` (a
no-op if absent; in `handle_merge` the removed element was just read from
the list, so it is always present). -/
def pyRemove : List Entry → Entry → List Entry
  | [], _ => []
  | y :: ys, x => if y = x then ys else y :: pyRemove ys x

/-- The inner `for j in existing[key]` loop of `handle_merge`
(lines 1157-1174), with Python's index-based iteration semantics: the
iterator yields positions `k = 0, 1, ...` of the list as currently mutated,
so a `remove` of an element at or before the current position skips the
following element.  `r` is the `replace` flag; when a same-named,
non-identical entry is met with `r` false, `prompt_y_n` is consulted —
`tty = false` models the `NoTTYException` path in which `overwrite` stays
false and the conflict error is raised.  The fuel argument is an upper
bound on the remaining iterations (the list never grows, `k` always
advances); the wrapper below supplies `l.length - k`, which suffices. -/
def handle_merge_scanA (i : Entry) (r tty py : Bool) :
    Nat → List Entry → Nat → Except Err (List Entry)
  | 0, l, _ => .ok l
  | fuel + 1, l, k =>
    if h : k < l.length then
      let j := l[k]
      if i.name = j.name then
        if r ∨ i = j then
          handle_merge_scanA i r tty py fuel (pyRemove l j) (k + 1)
        else if (if tty then py else false) then
          handle_merge_scanA i r tty py fuel (pyRemove l j) (k + 1)
        else
          .error .conflictingEntry
      else
        handle_merge_scanA i r tty py fuel l (k + 1)
    else
      .ok l

/-- The inner conflict-scan loop of `handle_merge`, started at position
`k` of list `l`. -/
def handle_merge_scan (i : Entry) (l : List Entry) (k : Nat) (r tty py : Bool) :
    Except Err (List Entry) :=
  handle_merge_scanA i r tty py (l.length - k) l k

/-- The outer `for i in addition[key]` loop of `handle_merge`
(lines 1156-1175): each addition entry is scanned against the current list
and then appended. -/
def handle_merge_list (ex addl : List Entry) (r tty py : Bool) :
    Except Err (List Entry) :=
  match addl with
  | [] => .ok ex
  | i :: rest =>
    match handle_merge_scan i ex 0 r tty py with
    | .error e => .error e
    | .ok ex' => handle_merge_list (ex' ++ [i]) rest r tty py

/-- `handle_merge(existing, addition, key, replace)` (lines 1149-1175) for
one key: a falsy (`None` or empty) addition list returns immediately
(line 1150); a `None` existing list is overwritten with the addition
(line 1152); otherwise the merge loop runs. -/
def handle_merge (exO addO : Option (List Entry)) (r tty py : Bool) :
    Except Err (Option (List Entry)) :=
  match addO with
  | none => .ok exO
  | some [] => .ok exO
  | some addl =>
    match exO with
    | none => .ok (some addl)
    | some ex =>
      match handle_merge_list ex addl r tty py with
      | .error e => .error e
      | .ok l => .ok (some l)

/-- The admin-context rename (lines 1107-1114): the first context of the
addition whose `context.user` starts with `clusterAdmin` has `-admin`
appended to its name, and `current-context` is pointed at it. -/
def renameFirstAdmin : List Entry → Option (List Entry × String)
  | [] => none
  | c :: cs =>
    if c.user.startsWith "clusterAdmin" then
      some (⟨c.name ++ "-admin", c.user, c.content⟩ :: cs, c.name ++ "-admin")
    else
      match renameFirstAdmin cs with
      | none => none
      | some (cs', n) => some (c :: cs', n)

/-- Apply the admin-context rename to an addition document
(`addition.get('contexts', [])` treats a `None` list as empty). -/
def rename_admin (cfg : KubeConfig) : KubeConfig :=
  match cfg.contexts with
  | none => cfg
  | some ctxs =>
    match renameFirstAdmin ctxs with
    | none => cfg
    | some (ctxs', newCur) =>
      { cfg with contexts := some ctxs', currentContext := newCur }

/-- `merge_kubernetes_configurations(existing_file, addition_file, replace)`
(lines 1091-1146) with `context_name = None` (as in the scenarios of the
claims; lines 1100-1104 are then skipped).  The two documents are assumed
loaded; the admin rename is applied to the addition (lines 1107-1114); a
`None` existing document is replaced by the addition (line 1122); otherwise
clusters, users and contexts are merged in that order (lines 1124-1126) and
`current-context` is taken from the addition (line 1127). -/
def merge_kubernetes_configurations (existing : Option KubeConfig)
    (addition0 : KubeConfig) (r tty py : Bool) : Except Err KubeConfig :=
  let addition := rename_admin addition0
  match existing with
  | none => .ok addition
  | some ex =>
    match handle_merge ex.clusters addition.clusters r tty py with
    | .error e => .error e
    | .ok cl =>
      match handle_merge ex.users addition.users r tty py with
      | .error e => .error e
      | .ok us =>
        match handle_merge ex.contexts addition.contexts r tty py with
        | .error e => .error e
        | .ok cx =>
          .ok { clusters := cl, users := us, contexts := cx,
                currentContext := addition.currentContext }

/-- The file-level effect of the merge: the target file is rewritten
(line 1136) only after every `handle_merge` call returned; any conflict
raises first, leaving the file as it was. -/
def merge_file (fileContents : Option KubeConfig) (addition : KubeConfig)
    (r tty py : Bool) : Option KubeConfig × Except Err Unit :=
  match merge_kubernetes_configurations fileContents addition r tty py with
  | .ok merged => (some merged, .ok ())
  | .error e => (fileContents, .error e)

/-- Uniqueness of entry names within one kubeconfig list (the
`LocalKubeConfig` invariant of the spec's data model). -/
def uniqueNames : List Entry → Bool
  | [] => true
  | x :: xs => xs.all (fun y => y.name != x.name) && uniqueNames xs

/-- `uniqueNames` lifted to a possibly-`null` list. -/
def uniqueNamesO : Option (List Entry) → Bool
  | none => true
  | some l => uniqueNames l

/-- The names referenced by a possibly-`null` addition list. -/
def namesO (o : Option (List Entry)) : List String :=
  (o.getD []).map (fun x => x.name)

/-- The entries of a possibly-`null` list whose names are not among `ns`
(the entries a fragment with names `ns` does not reference). -/
def filterNotNamed (ns : List String) (o : Option (List Entry)) : List Entry :=
  (o.getD []).filter (fun x => !(ns.contains x.name))

/-- Replacement of the entry named like `i` by `i` itself: the effect of one
iteration of the outer merge loop on a unique-named list. -/
def replaceSpec (l : List Entry) (i : Entry) : List Entry :=
  l.filter (fun x => x.name != i.name) ++ [i]

/-- The effect of `handle_merge` with `replace` on a unique-named list. -/
def mergedR (ex addl : List Entry) : List Entry :=
  addl.foldl replaceSpec ex

/-!
# Theorems

The claim theorems follow, preceded by the helper lemmas they share.
-/

/-- C1: the claim states that `get_aad_profile` accepts a post-override
triple iff it is fully populated or fully empty, and raises
`InvalidAADProfile` on any other combination.  The code does not: on the
triple (server `""`, client non-empty, tenant non-empty) — reachable with
no command-line overrides, a kubeconfig user carrying only client and
tenant ids, or with only `--aad-client-app-id` passed — line 733 tests the
client app id twice and never the server app id, so the resolver accepts
and even marks the cluster AAD-enabled, contradicting the source's own
comments ("If all fields are filled...", "If fields are partially filled
raise error").  This theorem evaluates the embedded code at that failing
input. -/
theorem aad_profile_partial_server_accepted :
    get_aad_profile_core "" "11111111-1111-1111-1111-111111111111"
        "72f988bf-86f1-41af-91ab-2d7cd011db47" none none none
      = .ok ({ server_app_id := "",
               client_app_id := "11111111-1111-1111-1111-111111111111",
               tenant_id := "72f988bf-86f1-41af-91ab-2d7cd011db47" }, true)
    ∧ get_aad_profile_core "" "11111111-1111-1111-1111-111111111111"
        "72f988bf-86f1-41af-91ab-2d7cd011db47" none none none
      ≠ .error .invalidAADProfile := by
  exact ⟨rfl, by decide⟩

/-- C9 counterexample: a first node carrying both the openshift os-id label
and the aks node-image-version label resolves to `"openshift"`, not
`"aks"` — the openshift rule has priority (lines 501-504), refuting the
claim that any node list whose first node carries the aks label resolves
to `"aks"`. -/
theorem distro_openshift_label_beats_aks_label :
    get_kubernetes_distro (some [⟨[("node.openshift.io/os_id", "rhcos"),
        ("kubernetes.azure.com/node-image-version", "2022.01.01")], [], none⟩]) = "openshift"
    ∧ ("openshift" : String) ≠ "aks" := by
  exact ⟨rfl, by decide⟩

/-- C9 (amended): if the first node carries the
`kubernetes.azure.com/node-image-version` label (with a non-empty value)
and does not carry the `node.openshift.io/os_id` label (with a non-empty
value), the resolver returns `"aks"`; and on an empty node list it returns
`"generic"`. -/
theorem distro_aks_label_and_empty_list :
    ∀ (node : NodeInfo) (rest : List NodeInfo),
      getTruthy node.labels "kubernetes.azure.com/node-image-version" = true →
      getTruthy node.labels "node.openshift.io/os_id" = false →
      get_kubernetes_distro (some (node :: rest)) = "aks"
      ∧ get_kubernetes_distro (some []) = "generic" := by
  intro node rest h1 h2
  refine ⟨?_, rfl⟩
  simp [get_kubernetes_distro, h1, h2]

/-- Witness for `distro_aks_label_and_empty_list` at a concrete AKS-labelled
node. -/
theorem distro_aks_label_and_empty_list_witness :
    getTruthy [("kubernetes.azure.com/node-image-version", "2022.01.01")]
        "kubernetes.azure.com/node-image-version" = true
    ∧ getTruthy [("kubernetes.azure.com/node-image-version", "2022.01.01")]
        "node.openshift.io/os_id" = false
    ∧ (get_kubernetes_distro (some [⟨[("kubernetes.azure.com/node-image-version",
          "2022.01.01")], [], none⟩]) = "aks"
       ∧ get_kubernetes_distro (some []) = "generic") := by
  refine ⟨rfl, rfl, ?_⟩
  exact distro_aks_label_and_empty_list
    ⟨[("kubernetes.azure.com/node-image-version", "2022.01.01")], [], none⟩ [] rfl rfl

/-- C7: when the resolved server address of the kubeconfig in use contains
the cluster-connect proxy marker `.k8sconnect.azure.`, `delete_connectedk8s`
aborts at the proxy check (line 816) with an empty call trace — in
particular before any helm deletion or remote resource deletion. -/
theorem delete_proxy_kubeconfig_aborts :
    ∀ (env : DeleteEnv) (rg name : String),
      check_proxy_kubeconfig env.serverAddress = true →
      delete_connectedk8s env rg name = ([], .error .proxyKubeconfig)
      ∧ (delete_connectedk8s env rg name).1.all
          (fun e => !(e.isHelmDelete || e.isRemoteDelete)) = true := by
  intro env rg name h
  refine ⟨?_, ?_⟩ <;> simp [delete_connectedk8s, h]

/-- Witness for `delete_proxy_kubeconfig_aborts` on a concrete proxy
kubeconfig server address. -/
theorem delete_proxy_kubeconfig_aborts_witness :
    check_proxy_kubeconfig "https://c1.rg1.k8sconnect.azure.net:443" = true
    ∧ (delete_connectedk8s
        { serverAddress := "https://c1.rg1.k8sconnect.azure.net:443",
          releaseNamespace := some "azure-arc", configmap := some ("rg1", "c1"),
          deleteOk := true, helmDeleteOk := true } "rg1" "c1"
        = ([], .error .proxyKubeconfig)
       ∧ (delete_connectedk8s
        { serverAddress := "https://c1.rg1.k8sconnect.azure.net:443",
          releaseNamespace := some "azure-arc", configmap := some ("rg1", "c1"),
          deleteOk := true, helmDeleteOk := true } "rg1" "c1").1.all
          (fun e => !(e.isHelmDelete || e.isRemoteDelete)) = true) := by
  refine ⟨rfl, ?_⟩
  exact delete_proxy_kubeconfig_aborts
    { serverAddress := "https://c1.rg1.k8sconnect.azure.net:443",
      releaseNamespace := some "azure-arc", configmap := some ("rg1", "c1"),
      deleteOk := true, helmDeleteOk := true } "rg1" "c1" rfl

/-- The cert-path escape of the empty string is empty. -/
theorem escape_proxy_cert_empty : escape_proxy_cert "" = "" := rfl

/-- C10: when the three proxy settings are empty after escaping, the proxy
cert path is empty and `--disable-proxy` is not passed, `update_agents`
raises the no-parameter error (line 1234) with an empty call trace — before
the kubeconfig is loaded, helm is invoked, or any control-plane call is
made. -/
theorem update_agents_no_params_aborts :
    ∀ (env : UpdateEnv) (rg name https http nop cert : String) (disable : Bool),
      escape_proxy_settings (some https) = "" →
      escape_proxy_settings (some http) = "" →
      escape_proxy_settings (some nop) = "" →
      cert = "" →
      disable = false →
      update_agents env rg name https http nop cert disable = ([], .error .noParam) := by
  intro env rg name https http nop cert disable h1 h2 h3 h4 h5
  subst h4 h5
  simp [update_agents, h1, h2, h3, escape_proxy_cert_empty]

/-- Witness for `update_agents_no_params_aborts` with all parameters
empty. -/
theorem update_agents_no_params_aborts_witness :
    escape_proxy_settings (some "") = ""
    ∧ update_agents
        { certExists := true, loadOk := true, helmOk := true,
          remoteHas := true, upgradeOk := true } "rg1" "c1" "" "" "" "" false
      = ([], .error .noParam) := by
  refine ⟨rfl, ?_⟩
  exact update_agents_no_params_aborts
    { certExists := true, loadOk := true, helmOk := true,
      remoteHas := true, upgradeOk := true } "rg1" "c1" "" "" "" "" false
    rfl rfl rfl rfl rfl

/-- C2 counterexample: when the config-map identity (`rg-old`, `c1`)
differs from the requested one (`rg-new`, `c1`) but the recorded resource
does not exist remotely, `create_connectedk8s` does not raise
`ClusterAlreadyOnboarded` (line 208 gates the conflict check on
`connected_cluster_exists`): it deletes the stale agents and proceeds to a
remote create, refuting the claim as stated. -/
theorem create_mismatch_without_remote_proceeds :
    create_connectedk8s
      { releaseNamespace := some "azure-arc", configmap := some ("rg-old", "c1"),
        remote := [], rgExists := true, freshKey := "FRESH", putOk := true,
        helmDeleteOk := true, helmInstallOk := true } "rg-new" "c1"
      = ([Event.remoteGet "rg-old" "c1", Event.helmDelete "azure-arc",
          Event.remoteCreate "rg-new" "c1" "FRESH", Event.helmInstall], .ok ())
    ∧ (create_connectedk8s
      { releaseNamespace := some "azure-arc", configmap := some ("rg-old", "c1"),
        remote := [], rgExists := true, freshKey := "FRESH", putOk := true,
        helmDeleteOk := true, helmInstallOk := true } "rg-new" "c1").2
      ≠ .error .clusterAlreadyOnboarded
    ∧ Event.remoteCreate "rg-new" "c1" "FRESH" ∈ (create_connectedk8s
      { releaseNamespace := some "azure-arc", configmap := some ("rg-old", "c1"),
        remote := [], rgExists := true, freshKey := "FRESH", putOk := true,
        helmDeleteOk := true, helmInstallOk := true } "rg-new" "c1").1 := by
  refine ⟨rfl, by decide, by decide⟩

/-- C2 (amended): when a local release exists, the config map records an
identity that differs (case-insensitively) from the requested one, and the
recorded resource exists remotely, `create_connectedk8s` raises
`ClusterAlreadyOnboarded` (lines 219-225) and its trace contains no remote
create and no remote delete call. -/
theorem create_mismatch_with_remote_raises :
    ∀ (env : CreateEnv) (rg name ns crg cname cert : String),
      env.releaseNamespace = some ns →
      env.configmap = some (crg, cname) →
      lookupRemote env.remote crg cname = some cert →
      ¬(lowerStr crg = lowerStr rg ∧ lowerStr cname = lowerStr name) →
      create_connectedk8s env rg name
        = ([Event.remoteGet crg cname], .error .clusterAlreadyOnboarded)
      ∧ (create_connectedk8s env rg name).1.all
          (fun e => !(e.isRemoteCreate || e.isRemoteDelete)) = true := by
  intro env rg name ns crg cname cert h1 h2 h3 h4
  have heq : create_connectedk8s env rg name
      = ([Event.remoteGet crg cname], .error .clusterAlreadyOnboarded) := by
    simp only [create_connectedk8s, h1, h2, h3]
    rw [if_neg h4]
  refine ⟨heq, ?_⟩
  rw [heq]
  rfl

/-- Witness for `create_mismatch_with_remote_raises`: the cluster is
recorded under (`rgA`, `c1`), which exists remotely, and the request names
(`rgB`, `c1`). -/
theorem create_mismatch_with_remote_raises_witness :
    lookupRemote [(("rgA", "c1"), "CERT")] "rgA" "c1" = some "CERT"
    ∧ ¬(lowerStr "rgA" = lowerStr "rgB" ∧ lowerStr "c1" = lowerStr "c1")
    ∧ (create_connectedk8s
        { releaseNamespace := some "azure-arc", configmap := some ("rgA", "c1"),
          remote := [(("rgA", "c1"), "CERT")], rgExists := true, freshKey := "FRESH",
          putOk := true, helmDeleteOk := true, helmInstallOk := true } "rgB" "c1"
        = ([Event.remoteGet "rgA" "c1"], .error .clusterAlreadyOnboarded)
       ∧ (create_connectedk8s
        { releaseNamespace := some "azure-arc", configmap := some ("rgA", "c1"),
          remote := [(("rgA", "c1"), "CERT")], rgExists := true, freshKey := "FRESH",
          putOk := true, helmDeleteOk := true, helmInstallOk := true } "rgB" "c1").1.all
          (fun e => !(e.isRemoteCreate || e.isRemoteDelete)) = true) := by
  refine ⟨rfl, by decide, ?_⟩
  exact create_mismatch_with_remote_raises
    { releaseNamespace := some "azure-arc", configmap := some ("rgA", "c1"),
      remote := [(("rgA", "c1"), "CERT")], rgExists := true, freshKey := "FRESH",
      putOk := true, helmDeleteOk := true, helmInstallOk := true }
    "rgB" "c1" "azure-arc" "rgA" "c1" "CERT" rfl rfl rfl (by decide)

/-- C3: when a local release exists, the config-map identity matches the
requested one case-insensitively, and the recorded resource exists remotely
with certificate `cert`, `create_connectedk8s` does not raise
`ResourceAlreadyExists`: it re-fetches the resource (line 213) and issues a
PUT whose payload carries the fetched certificate (lines 217-218). -/
theorem create_matching_release_reputs_existing_certificate :
    ∀ (env : CreateEnv) (rg name ns crg cname cert : String),
      env.releaseNamespace = some ns →
      env.configmap = some (crg, cname) →
      lookupRemote env.remote crg cname = some cert →
      lowerStr crg = lowerStr rg →
      lowerStr cname = lowerStr name →
      (create_connectedk8s env rg name).2 ≠ .error .resourceAlreadyExists
      ∧ Event.remoteGet crg cname ∈ (create_connectedk8s env rg name).1
      ∧ Event.remoteCreate rg name cert ∈ (create_connectedk8s env rg name).1 := by
  intro env rg name ns crg cname cert h1 h2 h3 h4 h5
  simp only [create_connectedk8s, h1, h2, h3]
  rw [if_pos ⟨h4, h5⟩]
  by_cases hp : env.putOk <;>
    by_cases hr : env.rgExists <;>
      by_cases hi : env.helmInstallOk <;>
        simp [hp, hr, hi, create_tail]

/-- Witness for `create_matching_release_reputs_existing_certificate`: the
recorded identity (`rgA`, `c1`) matches the request (`RGA`, `C1`) up to
case and the remote resource carries certificate `OLDCERT`. -/
theorem create_matching_release_reputs_existing_certificate_witness :
    lookupRemote [(("rgA", "c1"), "OLDCERT")] "rgA" "c1" = some "OLDCERT"
    ∧ lowerStr "rgA" = lowerStr "RGA"
    ∧ lowerStr "c1" = lowerStr "C1"
    ∧ ((create_connectedk8s
        { releaseNamespace := some "azure-arc", configmap := some ("rgA", "c1"),
          remote := [(("rgA", "c1"), "OLDCERT")], rgExists := true, freshKey := "FRESH",
          putOk := true, helmDeleteOk := true, helmInstallOk := true } "RGA" "C1").2
        ≠ .error .resourceAlreadyExists
       ∧ Event.remoteGet "rgA" "c1" ∈ (create_connectedk8s
        { releaseNamespace := some "azure-arc", configmap := some ("rgA", "c1"),
          remote := [(("rgA", "c1"), "OLDCERT")], rgExists := true, freshKey := "FRESH",
          putOk := true, helmDeleteOk := true, helmInstallOk := true } "RGA" "C1").1
       ∧ Event.remoteCreate "RGA" "C1" "OLDCERT" ∈ (create_connectedk8s
        { releaseNamespace := some "azure-arc", configmap := some ("rgA", "c1"),
          remote := [(("rgA", "c1"), "OLDCERT")], rgExists := true, freshKey := "FRESH",
          putOk := true, helmDeleteOk := true, helmInstallOk := true } "RGA" "C1").1) := by
  refine ⟨rfl, rfl, rfl, ?_⟩
  exact create_matching_release_reputs_existing_certificate
    { releaseNamespace := some "azure-arc", configmap := some ("rgA", "c1"),
      remote := [(("rgA", "c1"), "OLDCERT")], rgExists := true, freshKey := "FRESH",
      putOk := true, helmDeleteOk := true, helmInstallOk := true }
    "RGA" "C1" "azure-arc" "rgA" "c1" "OLDCERT" rfl rfl rfl rfl rfl

/-- C4 counterexample: in a run of `delete_connectedk8s` in which both the
remote resource deletion and the local agent teardown happen, the remote
deletion (line 851) comes first and the helm release deletion (line 862)
second — the opposite of the claimed order. -/
theorem delete_remote_precedes_agents_counterexample :
    delete_connectedk8s
      { serverAddress := "https://10.0.0.1:6443", releaseNamespace := some "azure-arc",
        configmap := some ("rg1", "c1"), deleteOk := true, helmDeleteOk := true }
      "rg1" "c1"
      = ([Event.remoteDelete "rg1" "c1", Event.helmDelete "azure-arc"], .ok ())
    ∧ List.findIdx Event.isRemoteDelete
        [Event.remoteDelete "rg1" "c1", Event.helmDelete "azure-arc"]
      < List.findIdx Event.isHelmDelete
        [Event.remoteDelete "rg1" "c1", Event.helmDelete "azure-arc"] := by
  refine ⟨rfl, by decide⟩

/-- C4 (amended): in every run of `delete_connectedk8s` whose trace contains
the local agent teardown, the trace is exactly the remote resource deletion
followed by the helm release deletion — the remote delete comes first, the
agent teardown second. -/
theorem delete_agents_teardown_follows_remote_delete :
    ∀ (env : DeleteEnv) (rg name ns : String),
      Event.helmDelete ns ∈ (delete_connectedk8s env rg name).1 →
      (delete_connectedk8s env rg name).1
        = [Event.remoteDelete rg name, Event.helmDelete ns] := by
  intro env rg name ns h
  obtain ⟨sa, rel, cm, dok, hok⟩ := env
  unfold delete_connectedk8s at h ⊢
  dsimp only at h ⊢
  by_cases hp : check_proxy_kubeconfig sa
  · simp [hp] at h
  · rw [if_neg hp] at h ⊢
    cases rel with
    | none => cases dok <;> simp_all
    | some ns' =>
      dsimp only at h ⊢
      cases cm with
      | none => simp_all
      | some p =>
        obtain ⟨crg, cname⟩ := p
        dsimp only at h ⊢
        by_cases hm : lowerStr crg = lowerStr rg ∧ lowerStr cname = lowerStr name
        · rw [if_pos hm] at h ⊢
          cases dok <;> cases hok <;> simp_all
        · rw [if_neg hm] at h
          simp at h

/-- Witness for `delete_agents_teardown_follows_remote_delete` on a run in
which both deletions happen. -/
theorem delete_agents_teardown_follows_remote_delete_witness :
    Event.helmDelete "azure-arc" ∈ (delete_connectedk8s
      { serverAddress := "https://10.0.0.1:6443", releaseNamespace := some "azure-arc",
        configmap := some ("rg1", "c1"), deleteOk := true, helmDeleteOk := true }
      "rg1" "c1").1
    ∧ (delete_connectedk8s
      { serverAddress := "https://10.0.0.1:6443", releaseNamespace := some "azure-arc",
        configmap := some ("rg1", "c1"), deleteOk := true, helmDeleteOk := true }
      "rg1" "c1").1
      = [Event.remoteDelete "rg1" "c1", Event.helmDelete "azure-arc"] := by
  refine ⟨by decide, ?_⟩
  exact delete_agents_teardown_follows_remote_delete
    { serverAddress := "https://10.0.0.1:6443", releaseNamespace := some "azure-arc",
      configmap := some ("rg1", "c1"), deleteOk := true, helmDeleteOk := true }
    "rg1" "c1" "azure-arc" (by decide)

/-- `replaceChar` distributes over list append. -/
theorem replaceChar_append (l₁ l₂ : List Char) (old : Char) (new : List Char) :
    replaceChar (l₁ ++ l₂) old new = replaceChar l₁ old new ++ replaceChar l₂ old new := by
  induction l₁ with
  | nil => rfl
  | cons c cs ih => simp [replaceChar, ih]

/-- The two single-character replacements performed by
`escape_proxy_settings` compute exactly the spec's insert-a-backslash
transformation. -/
theorem escape_chars_eq_spec (l : List Char) :
    replaceChar (replaceChar l ',' ['\\', ',']) '/' ['\\', '/'] = escapeSpecL l := by
  induction l with
  | nil => rfl
  | cons c cs ih =>
    by_cases h1 : c = ','
    · subst h1
      simp [replaceChar, escapeSpecL, replaceChar_append, ih]
    · by_cases h2 : c = '/'
      · subst h2
        simp [replaceChar, escapeSpecL, replaceChar_append, ih]
      · simp [replaceChar, escapeSpecL, replaceChar_append, ih, h1, h2]

/-- C8: for every proxy string containing `,` or `/`, the escaped form is
the input with each such character preceded by a single backslash (every
other character unchanged), and the helm argument list receives the
complete string `global.httpsProxy=` + escaped form as one argument — in
particular it is not truncated at the originally unescaped character. -/
theorem escape_proxy_settings_spec_and_arg :
    ∀ (s : String), (',' ∈ s.data ∨ '/' ∈ s.data) →
      escape_proxy_settings (some s) = String.mk (escapeSpecL s.data)
      ∧ ∀ (chart sub distro infra rg name loc tenant priv httpP noP cert : String)
          (kc kctx : Option String) (nw : Bool) (vf : Option String) (ext : Bool)
          (cloud : String),
          ("global.httpsProxy=" ++ escape_proxy_settings (some s)) ∈
            helm_install_release_args chart sub distro infra rg name loc tenant priv
              httpP (escape_proxy_settings (some s)) noP cert kc kctx nw vf ext cloud := by
  intro s hs
  have heq : escape_proxy_settings (some s) = String.mk (escapeSpecL s.data) := by
    simp [escape_proxy_settings, escape_chars_eq_spec]
  have hdata : s.data ≠ [] := by
    rcases hs with h | h <;> exact List.ne_nil_of_mem h
  have hne : escape_proxy_settings (some s) ≠ "" := by
    rw [heq]
    intro hcon
    have hnil : escapeSpecL s.data = [] := by
      have := congrArg String.data hcon
      simpa using this
    cases hd : s.data with
    | nil => exact hdata hd
    | cons c cs =>
      rw [hd] at hnil
      by_cases hc : (c = ',' ∨ c = '/') <;> simp [escapeSpecL, hc] at hnil
  refine ⟨heq, ?_⟩
  intro chart sub distro infra rg name loc tenant priv httpP noP cert kc kctx nw vf ext cloud
  unfold helm_install_release_args
  have hmem : ("global.httpsProxy=" ++ escape_proxy_settings (some s)) ∈
      (if escape_proxy_settings (some s) ≠ "" then
        ["--set", "global.httpsProxy=" ++ escape_proxy_settings (some s)] else []) := by
    rw [if_pos hne]
    simp
  exact List.mem_append_left _ (List.mem_append_left _ (List.mem_append_left _
    (List.mem_append_left _ (List.mem_append_left _ (List.mem_append_left _
    (List.mem_append_left _ (List.mem_append_right _ hmem)))))))

/-- Witness for `escape_proxy_settings_spec_and_arg` on a concrete proxy
URL containing both `/` and `,`. -/
theorem escape_proxy_settings_spec_and_arg_witness :
    (',' ∈ "http://proxy:8080/a,b".data ∨ '/' ∈ "http://proxy:8080/a,b".data)
    ∧ escape_proxy_settings (some "http://proxy:8080/a,b")
        = String.mk (escapeSpecL "http://proxy:8080/a,b".data)
    ∧ ("global.httpsProxy=" ++ escape_proxy_settings (some "http://proxy:8080/a,b")) ∈
        helm_install_release_args "chart" "sub" "generic" "generic" "rg1" "c1"
          "eastus" "tenant" "KEY" "" (escape_proxy_settings (some "http://proxy:8080/a,b"))
          "" "" none none false none true "AZUREPUBLICCLOUD" := by
  have hs : (',' ∈ "http://proxy:8080/a,b".data ∨ '/' ∈ "http://proxy:8080/a,b".data) := by
    decide
  exact ⟨hs, (escape_proxy_settings_spec_and_arg "http://proxy:8080/a,b" hs).1,
    (escape_proxy_settings_spec_and_arg "http://proxy:8080/a,b" hs).2 "chart" "sub"
      "generic" "generic" "rg1" "c1" "eastus" "tenant" "KEY" ""
      "" "" none none false none true "AZUREPUBLICCLOUD"⟩

/-! ### Lemmas about the merge loops -/

/-- Unfolding of `uniqueNames` at a cons cell. -/
theorem uniqueNames_cons {x : Entry} {xs : List Entry} :
    uniqueNames (x :: xs) = true ↔ (∀ y ∈ xs, y.name ≠ x.name) ∧ uniqueNames xs = true := by
  simp [uniqueNames, List.all_eq_true]

/-- `uniqueNames` is pairwise distinctness of names. -/
theorem uniqueNames_iff_pairwise {l : List Entry} :
    uniqueNames l = true ↔ l.Pairwise (fun a b => a.name ≠ b.name) := by
  induction l with
  | nil => simp [uniqueNames]
  | cons x xs ih =>
    rw [uniqueNames_cons, List.pairwise_cons, ih]
    constructor
    · rintro ⟨h1, h2⟩; exact ⟨fun a ha => (h1 a ha).symm, h2⟩
    · rintro ⟨h1, h2⟩; exact ⟨fun a ha => (h1 a ha).symm, h2⟩

/-- Name uniqueness restricts to sublists. -/
theorem uniqueNames_sublist {l l' : List Entry} (hs : List.Sublist l' l)
    (h : uniqueNames l = true) : uniqueNames l' = true := by
  rw [uniqueNames_iff_pairwise] at *
  exact List.Pairwise.sublist hs h

/-- On a unique-named list, Python `remove` of the element at position `k`
erases exactly position `k` (no earlier element can be equal to it). -/
theorem pyRemove_unique {l : List Entry} (h : uniqueNames l = true) (k : Nat)
    (hk : k < l.length) : pyRemove l l[k] = l.take k ++ l.drop (k + 1) := by
  induction l generalizing k with
  | nil => simp at hk
  | cons x xs ih =>
    cases k with
    | zero => simp [pyRemove]
    | succ k =>
      have h' := uniqueNames_cons.mp h
      have hk' : k < xs.length := by simpa using hk
      have hmem : xs[k] ∈ xs := List.getElem_mem hk'
      have hx : ¬(x = xs[k]) := by
        intro e
        exact (h'.1 _ hmem) (by rw [← e])
      simp only [List.getElem_cons_succ, pyRemove, if_neg hx, List.take_succ_cons,
        List.drop_succ_cons, List.cons_append]
      rw [ih h'.2 k hk']

/-- Dropping one more element keeps a member inside the earlier drop. -/
theorem mem_drop_succ_of_mem {l : List Entry} {k : Nat} {a : Entry}
    (h : a ∈ l.drop (k + 1)) : a ∈ l.drop k := by
  have h1 : List.Sublist (l.drop (k + 1)) (l.drop k) := by
    have : (l.drop k).drop 1 = l.drop (k + 1) := by
      rw [List.drop_drop]
    rw [← this]
    exact List.drop_sublist 1 (l.drop k)
  exact h1.mem h

/-- The element after a unique-named list's position `k` survives the
name filter for `l[k]`'s name: heads of `l.drop (k+1)` cannot share the
name of `l[k]`. -/
theorem filter_take_one_drop {l : List Entry} (hu : uniqueNames l = true) {k : Nat}
    (hk : k < l.length) (i : Entry) (hnm : l[k].name = i.name) :
    (l.drop (k + 1)).take 1 ++ ((l.drop (k + 1)).drop 1).filter (fun x => x.name != i.name)
      = (l.drop (k + 1)).filter (fun x => x.name != i.name) := by
  cases hd : l.drop (k + 1) with
  | nil => simp
  | cons y ys =>
    have hdk : l.drop k = l[k] :: y :: ys := by
      rw [← List.getElem_cons_drop l k hk, hd]
    have hpw : (l.drop k).Pairwise (fun a b => a.name ≠ b.name) := by
      rw [← uniqueNames_iff_pairwise]
      exact uniqueNames_sublist (List.drop_sublist k l) hu
    rw [hdk, List.pairwise_cons] at hpw
    have hyname : y.name ≠ i.name := by
      rw [← hnm]
      exact fun e => (hpw.1 y (List.mem_cons_self y ys)) e.symm
    have hyp : (y.name != i.name) = true := bne_iff_ne.mpr hyname
    simp [List.filter_cons, hyp]

/-- Success characterization of the inner scan loop on a unique-named
list: when every same-named entry at or after position `k` is either
replaced (`r` true) or identical to `i`, the loop removes exactly the
same-named entries after position `k` and succeeds. -/
theorem scanA_ok (i : Entry) (r tty py : Bool) :
    ∀ (fuel : Nat) (l : List Entry) (k : Nat),
      l.length ≤ fuel + k →
      uniqueNames l = true →
      (∀ j ∈ l.drop k, j.name = i.name → (r = true ∨ j = i)) →
      handle_merge_scanA i r tty py fuel l k
        = .ok (l.take k ++ (l.drop k).filter (fun x => x.name != i.name)) := by
  intro fuel
  induction fuel with
  | zero =>
    intro l k hlen hu hH
    have hd : l.drop k = [] := List.drop_eq_nil_of_le (by omega)
    have ht : l.take k = l := List.take_of_length_le (by omega)
    simp [handle_merge_scanA, hd, ht]
  | succ fuel ih =>
    intro l k hlen hu hH
    by_cases hk : k < l.length
    · have hdropk : l.drop k = l[k] :: l.drop (k + 1) :=
        (List.getElem_cons_drop l k hk).symm
      unfold handle_merge_scanA
      rw [dif_pos hk]
      by_cases hname : i.name = l[k].name
      · have hcase : r = true ∨ l[k] = i :=
          hH l[k] (by rw [hdropk]; exact List.mem_cons_self _ _) hname.symm
        have hcond : r = true ∨ i = l[k] := by
          rcases hcase with h | h
          · exact Or.inl h
          · exact Or.inr h.symm
        rw [if_pos hname, if_pos hcond, pyRemove_unique hu k hk]
        have htklen : (l.take k).length = k := by
          simp [List.length_take]
          omega
        have hlen' : (l.take k ++ l.drop (k + 1)).length ≤ fuel + (k + 1) := by
          rw [List.length_append, htklen, List.length_drop]
          omega
        have hsub : List.Sublist (l.take k ++ l.drop (k + 1)) l := by
          have h1 : List.Sublist (l.drop (k + 1)) (l.drop k) := by
            have h2 : (l.drop k).drop 1 = l.drop (k + 1) := by rw [List.drop_drop]
            rw [← h2]
            exact List.drop_sublist 1 (l.drop k)
          have h3 := List.Sublist.append_left h1 (l.take k)
          rw [List.take_append_drop k l] at h3
          exact h3
        have hu' : uniqueNames (l.take k ++ l.drop (k + 1)) = true :=
          uniqueNames_sublist hsub hu
        have hdrop' : (l.take k ++ l.drop (k + 1)).drop (k + 1)
            = (l.drop (k + 1)).drop 1 := by
          have := @List.drop_append _ (l.take k) (l.drop (k + 1)) 1
          rw [htklen] at this
          exact this
        have hH' : ∀ j' ∈ (l.take k ++ l.drop (k + 1)).drop (k + 1),
            j'.name = i.name → (r = true ∨ j' = i) := by
          intro j' hj' hn
          rw [hdrop'] at hj'
          have hj'1 : j' ∈ l.drop (k + 1) := List.mem_of_mem_drop hj'
          exact hH j' (mem_drop_succ_of_mem hj'1) hn
        rw [ih _ (k + 1) hlen' hu' hH']
        have htake' : (l.take k ++ l.drop (k + 1)).take (k + 1)
            = l.take k ++ (l.drop (k + 1)).take 1 := by
          have := @List.take_append _ (l.take k) (l.drop (k + 1)) 1
          rw [htklen] at this
          exact this
        rw [hdrop', htake', hdropk]
        have hpk : (l[k].name != i.name) = false := by
          simp [hname.symm]
        rw [List.filter_cons, hpk]
        simp only [Bool.false_eq_true, if_false, List.append_assoc]
        rw [filter_take_one_drop hu hk i hname.symm]
      · rw [if_neg hname]
        have hH' : ∀ j' ∈ l.drop (k + 1), j'.name = i.name → (r = true ∨ j' = i) :=
          fun j' hj' hn => hH j' (mem_drop_succ_of_mem hj') hn
        rw [ih l (k + 1) (by omega) hu hH']
        have htake : l.take (k + 1) = l.take k ++ [l[k]] := by
          rw [List.take_succ, List.getElem?_eq_getElem hk]
          rfl
        have hpk : (l[k].name != i.name) = true :=
          bne_iff_ne.mpr (fun e => hname e.symm)
        rw [htake, hdropk, List.filter_cons, hpk]
        simp only [if_true, List.append_assoc, List.singleton_append]
    · unfold handle_merge_scanA
      rw [dif_neg hk]
      have hd : l.drop k = [] := List.drop_eq_nil_of_le (by omega)
      have ht : l.take k = l := List.take_of_length_le (by omega)
      simp [hd, ht]

/-- Error characterization of the inner scan loop on a unique-named list
with `replace` false and no terminal attached: a same-named, non-identical
entry at or after position `k` forces the conflict error. -/
theorem scanA_err (i : Entry) (py : Bool) :
    ∀ (fuel : Nat) (l : List Entry) (k : Nat),
      l.length ≤ fuel + k →
      uniqueNames l = true →
      (∃ j ∈ l.drop k, j.name = i.name ∧ j ≠ i) →
      handle_merge_scanA i false false py fuel l k = .error .conflictingEntry := by
  intro fuel
  induction fuel with
  | zero =>
    rintro l k hlen hu ⟨j, hj, -⟩
    rw [List.drop_eq_nil_of_le (by omega)] at hj
    simp at hj
  | succ fuel ih =>
    rintro l k hlen hu ⟨j, hjmem, hjname, hjne⟩
    have hk : k < l.length := by
      by_contra hnk
      rw [List.drop_eq_nil_of_le (by omega)] at hjmem
      simp at hjmem
    have hdropk : l.drop k = l[k] :: l.drop (k + 1) :=
      (List.getElem_cons_drop l k hk).symm
    have hpw : (l.drop k).Pairwise (fun a b => a.name ≠ b.name) := by
      rw [← uniqueNames_iff_pairwise]
      exact uniqueNames_sublist (List.drop_sublist k l) hu
    unfold handle_merge_scanA
    rw [dif_pos hk]
    by_cases hname : i.name = l[k].name
    · have hne0 : ¬(false = true ∨ i = l[k]) := by
        rintro (hc | hc)
        · exact Bool.false_ne_true hc
        · -- i = l[k]: the witness j ≠ i = l[k] shares i's name, violating uniqueness
          have hjk : j ≠ l[k] := by rw [← hc]; exact hjne
          have hjtail : j ∈ l.drop (k + 1) := by
            rw [hdropk] at hjmem
            rcases List.mem_cons.mp hjmem with h | h
            · exact absurd h hjk
            · exact h
          rw [hdropk, List.pairwise_cons] at hpw
          exact (hpw.1 j hjtail) (by rw [hjname, ← hname, hc])
      rw [if_pos hname, if_neg hne0]
      simp
    · rw [if_neg hname]
      apply ih l (k + 1) (by omega) hu
      refine ⟨j, ?_, hjname, hjne⟩
      rw [hdropk] at hjmem
      rcases List.mem_cons.mp hjmem with h | h
      · exact absurd (by rw [h] at hjname; exact hjname.symm) hname
      · exact h

/-- Success form of `handle_merge_scan` started at position 0. -/
theorem handle_merge_scan_ok (i : Entry) (r tty py : Bool) (l : List Entry)
    (hu : uniqueNames l = true)
    (hH : ∀ j ∈ l, j.name = i.name → (r = true ∨ j = i)) :
    handle_merge_scan i l 0 r tty py
      = .ok (l.filter (fun x => x.name != i.name)) := by
  unfold handle_merge_scan
  have h := scanA_ok i r tty py (l.length - 0) l 0 (by omega) hu (by simpa using hH)
  simpa using h

/-- Error form of `handle_merge_scan` started at position 0. -/
theorem handle_merge_scan_err (i : Entry) (py : Bool) (l : List Entry)
    (hu : uniqueNames l = true)
    (hex : ∃ j ∈ l, j.name = i.name ∧ j ≠ i) :
    handle_merge_scan i l 0 false false py = .error .conflictingEntry := by
  unfold handle_merge_scan
  exact scanA_err i py (l.length - 0) l 0 (by omega) hu (by simpa using hex)

/-- One replace step preserves name uniqueness. -/
theorem uniq_replaceSpec (l : List Entry) (i : Entry) (h : uniqueNames l = true) :
    uniqueNames (replaceSpec l i) = true := by
  rw [uniqueNames_iff_pairwise] at *
  unfold replaceSpec
  rw [List.pairwise_append]
  refine ⟨List.Pairwise.sublist (List.filter_sublist l) h, by simp, ?_⟩
  intro a ha b hb
  have hb' : b = i := by simpa using hb
  subst hb'
  have := List.of_mem_filter ha
  exact bne_iff_ne.mp this

/-- `handle_merge_list` with `replace` computes the fold of replace steps
on a unique-named list. -/
theorem handle_merge_list_ok :
    ∀ (addl ex : List Entry) (tty py : Bool),
      uniqueNames ex = true →
      handle_merge_list ex addl true tty py = .ok (mergedR ex addl) := by
  intro addl
  induction addl with
  | nil => intro ex tty py hu; rfl
  | cons i rest ih =>
    intro ex tty py hu
    unfold handle_merge_list
    rw [handle_merge_scan_ok i true tty py ex hu (fun j _ _ => Or.inl rfl)]
    exact ih _ tty py (uniq_replaceSpec ex i hu)

/-- `handle_merge_list` without `replace` and without a terminal raises the
conflict error whenever some addition entry has a same-named,
non-identical counterpart in the unique-named existing list. -/
theorem handle_merge_list_conflict :
    ∀ (addl ex : List Entry) (py : Bool),
      uniqueNames ex = true →
      (∃ i ∈ addl, ∃ j ∈ ex, j.name = i.name ∧ j ≠ i) →
      handle_merge_list ex addl false false py = .error .conflictingEntry := by
  intro addl
  induction addl with
  | nil =>
    rintro ex py hu ⟨i, hi, -⟩
    simp at hi
  | cons i rest ih =>
    rintro ex py hu ⟨i₀, hi₀, j₀, hj₀, hn, hne⟩
    by_cases hc : ∃ j ∈ ex, j.name = i.name ∧ j ≠ i
    · unfold handle_merge_list
      rw [handle_merge_scan_err i py ex hu hc]
    · push_neg at hc
      have hH : ∀ j ∈ ex, j.name = i.name → (false = true ∨ j = i) :=
        fun j hj hn' => Or.inr (hc j hj hn')
      unfold handle_merge_list
      rw [handle_merge_scan_ok i false false py ex hu hH]
      apply ih _ py (uniq_replaceSpec ex i hu)
      have hi₀rest : i₀ ∈ rest := by
        rcases List.mem_cons.mp hi₀ with h | h
        · exfalso
          subst h
          exact hne (hc j₀ hj₀ hn)
        · exact h
      by_cases hjn : j₀.name = i.name
      · have hj₀i : j₀ = i := hc j₀ hj₀ hjn
        refine ⟨i₀, hi₀rest, i, ?_, ?_, ?_⟩
        · exact List.mem_append_right _ (by simp)
        · rw [← hj₀i]; exact hn
        · rw [← hj₀i]; exact hne
      · refine ⟨i₀, hi₀rest, j₀, ?_, hn, hne⟩
        apply List.mem_append_left
        exact List.mem_filter.mpr ⟨hj₀, bne_iff_ne.mpr hjn⟩

/-- A replace step does not change the entries whose names a fragment does
not reference (when the replacing entry's name is referenced). -/
theorem filterNot_replaceSpec (ns : List String) (l : List Entry) (i : Entry)
    (hi : i.name ∈ ns) :
    (replaceSpec l i).filter (fun x => !(ns.contains x.name))
      = l.filter (fun x => !(ns.contains x.name)) := by
  unfold replaceSpec
  rw [List.filter_append]
  have h1 : List.filter (fun x => !(ns.contains x.name)) [i] = [] := by
    simp [hi]
  rw [h1, List.append_nil, List.filter_filter]
  apply List.filter_congr
  intro x _
  by_cases hx : x.name ∈ ns
  · simp [hx]
  · have hxi : x.name ≠ i.name := fun e => hx (e ▸ hi)
    simp [hx, hxi]

/-- The fold of replace steps leaves unreferenced entries untouched. -/
theorem filterNot_mergedR (ns : List String) (addl : List Entry) :
    ∀ ex, (∀ i ∈ addl, i.name ∈ ns) →
      (mergedR ex addl).filter (fun x => !(ns.contains x.name))
        = ex.filter (fun x => !(ns.contains x.name)) := by
  induction addl with
  | nil => intro ex _; rfl
  | cons i rest ih =>
    intro ex h
    have hstep : mergedR ex (i :: rest) = mergedR (replaceSpec ex i) rest := rfl
    rw [hstep, ih _ (fun a ha => h a (List.mem_cons_of_mem _ ha)),
      filterNot_replaceSpec ns ex i (h i (List.mem_cons_self _ _))]

/-- The fold of replace steps preserves name uniqueness. -/
theorem uniq_mergedR (addl : List Entry) :
    ∀ ex, uniqueNames ex = true → uniqueNames (mergedR ex addl) = true := by
  induction addl with
  | nil => intro ex h; exact h
  | cons i rest ih =>
    intro ex h
    exact ih _ (uniq_replaceSpec ex i h)

/-- Every entry of a list has its name among the list's names. -/
theorem names_mem_of_mem (addl : List Entry) (i : Entry) (hi : i ∈ addl) :
    i.name ∈ namesO (some addl) := by
  simp only [namesO, Option.getD_some]
  exact List.mem_map_of_mem _ hi

/-- `handle_merge` with `replace` on unique-named key lists: it succeeds,
the result is unique-named, and unreferenced entries are untouched. -/
theorem handle_merge_replace_spec (exO addO : Option (List Entry)) (tty py : Bool)
    (hex : uniqueNamesO exO = true) (had : uniqueNamesO addO = true) :
    ∃ out, handle_merge exO addO true tty py = .ok out
      ∧ uniqueNamesO out = true
      ∧ filterNotNamed (namesO addO) out = filterNotNamed (namesO addO) exO := by
  match addO with
  | none => exact ⟨exO, rfl, hex, rfl⟩
  | some [] => exact ⟨exO, rfl, hex, rfl⟩
  | some (a :: addl) =>
    match exO with
    | none =>
      refine ⟨some (a :: addl), rfl, had, ?_⟩
      unfold filterNotNamed
      simp only [Option.getD_some, Option.getD_none, List.filter_nil]
      apply List.filter_eq_nil_iff.mpr
      intro x hx
      simp [names_mem_of_mem (a :: addl) x hx]
    | some ex =>
      have hex' : uniqueNames ex = true := by simpa [uniqueNamesO] using hex
      have h1 := handle_merge_list_ok (a :: addl) ex tty py hex'
      refine ⟨some (mergedR ex (a :: addl)), ?_, ?_, ?_⟩
      · unfold handle_merge
        dsimp only
        rw [h1]
      · simpa [uniqueNamesO] using uniq_mergedR (a :: addl) ex hex'
      · unfold filterNotNamed
        simp only [Option.getD_some]
        exact filterNot_mergedR (namesO (some (a :: addl))) (a :: addl) ex
          (fun i hi => names_mem_of_mem _ i hi)

/-- The admin-context rename does not touch the clusters list. -/
theorem rename_admin_clusters (cfg : KubeConfig) :
    (rename_admin cfg).clusters = cfg.clusters := by
  unfold rename_admin
  rcases cfg.contexts with - | c
  · rfl
  · dsimp only
    rcases renameFirstAdmin c with - | ⟨l, n⟩ <;> rfl

/-- The admin-context rename does not touch the users list. -/
theorem rename_admin_users (cfg : KubeConfig) :
    (rename_admin cfg).users = cfg.users := by
  unfold rename_admin
  rcases cfg.contexts with - | c
  · rfl
  · dsimp only
    rcases renameFirstAdmin c with - | ⟨l, n⟩ <;> rfl

/-- C5: when the existing kubeconfig (whose clusters list satisfies the
unique-name invariant of the spec's data model) and the addition fragment
contain same-named cluster entries with different content, merging with
`replace` false and no terminal attached (no interactive confirmation)
raises the conflict error and leaves the file contents unchanged: the
write at line 1136 is never reached. -/
theorem merge_conflict_no_tty_preserves_file :
    ∀ (ex add : KubeConfig) (py : Bool) (exl addl : List Entry) (i j : Entry),
      ex.clusters = some exl → uniqueNames exl = true →
      add.clusters = some addl →
      i ∈ addl → j ∈ exl → j.name = i.name → j ≠ i →
      merge_file (some ex) add false false py
        = (some ex, .error .conflictingEntry) := by
  intro ex add py exl addl i j hexc hu haddc hi hj hn hne
  have haddc' : (rename_admin add).clusters = some addl := by
    rw [rename_admin_clusters]
    exact haddc
  have herr : handle_merge ex.clusters (rename_admin add).clusters false false py
      = .error .conflictingEntry := by
    rw [haddc', hexc]
    cases addl with
    | nil => simp at hi
    | cons a rest =>
      unfold handle_merge
      dsimp only
      rw [handle_merge_list_conflict (a :: rest) exl py hu ⟨i, hi, j, hj, hn, hne⟩]
  unfold merge_file merge_kubernetes_configurations
  dsimp only
  rw [herr]

/-- Witness for `merge_conflict_no_tty_preserves_file`: the file holds a
cluster entry named `c1` with content `A`; the fragment brings `c1` with
content `B`. -/
theorem merge_conflict_no_tty_preserves_file_witness :
    uniqueNames [⟨"c1", "", "A"⟩] = true
    ∧ (⟨"c1", "", "B"⟩ : Entry) ∈ [(⟨"c1", "", "B"⟩ : Entry)]
    ∧ (⟨"c1", "", "A"⟩ : Entry) ∈ [(⟨"c1", "", "A"⟩ : Entry)]
    ∧ Entry.name ⟨"c1", "", "A"⟩ = Entry.name ⟨"c1", "", "B"⟩
    ∧ (⟨"c1", "", "A"⟩ : Entry) ≠ ⟨"c1", "", "B"⟩
    ∧ merge_file (some ⟨some [⟨"c1", "", "A"⟩], some [], some [], "ctx"⟩)
        ⟨some [⟨"c1", "", "B"⟩], none, none, "ctx2"⟩ false false false
      = (some ⟨some [⟨"c1", "", "A"⟩], some [], some [], "ctx"⟩,
         .error .conflictingEntry) := by
  refine ⟨rfl, by simp, by simp, rfl, by decide, ?_⟩
  exact merge_conflict_no_tty_preserves_file
    ⟨some [⟨"c1", "", "A"⟩], some [], some [], "ctx"⟩
    ⟨some [⟨"c1", "", "B"⟩], none, none, "ctx2"⟩ false
    [⟨"c1", "", "A"⟩] [⟨"c1", "", "B"⟩] ⟨"c1", "", "B"⟩ ⟨"c1", "", "A"⟩
    rfl rfl rfl (by simp) (by simp) rfl (by decide)

/-- C6: merging the same credential fragment twice into a kubeconfig with
`replace` true (both sides satisfying the unique-name invariant of the
spec's data model, the fragment after its admin-context rename) succeeds
both times, every list of the final document has at most one entry per
name, and the entries whose names the fragment does not reference are left
exactly as they were. -/
theorem merge_twice_replace_unique_and_untouched :
    ∀ (ex add : KubeConfig) (tty py : Bool),
      uniqueNamesO ex.clusters = true → uniqueNamesO ex.users = true →
      uniqueNamesO ex.contexts = true →
      uniqueNamesO (rename_admin add).clusters = true →
      uniqueNamesO (rename_admin add).users = true →
      uniqueNamesO (rename_admin add).contexts = true →
      ∃ m₁ m₂,
        merge_kubernetes_configurations (some ex) add true tty py = .ok m₁
        ∧ merge_kubernetes_configurations (some m₁) add true tty py = .ok m₂
        ∧ uniqueNamesO m₂.clusters = true ∧ uniqueNamesO m₂.users = true
        ∧ uniqueNamesO m₂.contexts = true
        ∧ filterNotNamed (namesO (rename_admin add).clusters) m₂.clusters
            = filterNotNamed (namesO (rename_admin add).clusters) ex.clusters
        ∧ filterNotNamed (namesO (rename_admin add).users) m₂.users
            = filterNotNamed (namesO (rename_admin add).users) ex.users
        ∧ filterNotNamed (namesO (rename_admin add).contexts) m₂.contexts
            = filterNotNamed (namesO (rename_admin add).contexts) ex.contexts := by
  intro ex add tty py hc hu hx ac au ax
  obtain ⟨c1, hc1, hc1u, hc1f⟩ :=
    handle_merge_replace_spec ex.clusters (rename_admin add).clusters tty py hc ac
  obtain ⟨u1, hu1, hu1u, hu1f⟩ :=
    handle_merge_replace_spec ex.users (rename_admin add).users tty py hu au
  obtain ⟨x1, hx1, hx1u, hx1f⟩ :=
    handle_merge_replace_spec ex.contexts (rename_admin add).contexts tty py hx ax
  have hm1 : merge_kubernetes_configurations (some ex) add true tty py
      = .ok ⟨c1, u1, x1, (rename_admin add).currentContext⟩ := by
    unfold merge_kubernetes_configurations
    dsimp only
    rw [hc1, hu1, hx1]
  obtain ⟨c2, hc2, hc2u, hc2f⟩ :=
    handle_merge_replace_spec c1 (rename_admin add).clusters tty py hc1u ac
  obtain ⟨u2, hu2, hu2u, hu2f⟩ :=
    handle_merge_replace_spec u1 (rename_admin add).users tty py hu1u au
  obtain ⟨x2, hx2, hx2u, hx2f⟩ :=
    handle_merge_replace_spec x1 (rename_admin add).contexts tty py hx1u ax
  have hm2 : merge_kubernetes_configurations
      (some (⟨c1, u1, x1, (rename_admin add).currentContext⟩ : KubeConfig))
      add true tty py
      = .ok ⟨c2, u2, x2, (rename_admin add).currentContext⟩ := by
    unfold merge_kubernetes_configurations
    dsimp only
    rw [hc2, hu2, hx2]
  refine ⟨_, _, hm1, hm2, hc2u, hu2u, hx2u, ?_, ?_, ?_⟩
  · exact hc2f.trans hc1f
  · exact hu2f.trans hu1f
  · exact hx2f.trans hx1f

/-- Witness for `merge_twice_replace_unique_and_untouched`: a fragment
bringing one cluster, one user and one context (no admin rename applies)
merged twice into a file holding one unrelated cluster and one unrelated
user. -/
theorem merge_twice_replace_unique_and_untouched_witness :
    uniqueNamesO (some [(⟨"old", "", "X"⟩ : Entry)]) = true
    ∧ uniqueNamesO (rename_admin
        ⟨some [⟨"c1", "", "C"⟩], some [⟨"u1", "", "V"⟩],
         some [⟨"ctx1", "user1", "W"⟩], "ctx1"⟩).clusters = true
    ∧ (∃ m₁ m₂,
        merge_kubernetes_configurations
          (some ⟨some [⟨"old", "", "X"⟩], some [⟨"u0", "", "U"⟩], none, "ctx"⟩)
          ⟨some [⟨"c1", "", "C"⟩], some [⟨"u1", "", "V"⟩],
           some [⟨"ctx1", "user1", "W"⟩], "ctx1"⟩ true false false = .ok m₁
        ∧ merge_kubernetes_configurations (some m₁)
          ⟨some [⟨"c1", "", "C"⟩], some [⟨"u1", "", "V"⟩],
           some [⟨"ctx1", "user1", "W"⟩], "ctx1"⟩ true false false = .ok m₂
        ∧ uniqueNamesO m₂.clusters = true ∧ uniqueNamesO m₂.users = true
        ∧ uniqueNamesO m₂.contexts = true
        ∧ filterNotNamed (namesO (rename_admin
            ⟨some [⟨"c1", "", "C"⟩], some [⟨"u1", "", "V"⟩],
             some [⟨"ctx1", "user1", "W"⟩], "ctx1"⟩).clusters) m₂.clusters
            = filterNotNamed (namesO (rename_admin
                ⟨some [⟨"c1", "", "C"⟩], some [⟨"u1", "", "V"⟩],
                 some [⟨"ctx1", "user1", "W"⟩], "ctx1"⟩).clusters)
              (some [⟨"old", "", "X"⟩])
        ∧ filterNotNamed (namesO (rename_admin
            ⟨some [⟨"c1", "", "C"⟩], some [⟨"u1", "", "V"⟩],
             some [⟨"ctx1", "user1", "W"⟩], "ctx1"⟩).users) m₂.users
            = filterNotNamed (namesO (rename_admin
                ⟨some [⟨"c1", "", "C"⟩], some [⟨"u1", "", "V"⟩],
                 some [⟨"ctx1", "user1", "W"⟩], "ctx1"⟩).users)
              (some [⟨"u0", "", "U"⟩])
        ∧ filterNotNamed (namesO (rename_admin
            ⟨some [⟨"c1", "", "C"⟩], some [⟨"u1", "", "V"⟩],
             some [⟨"ctx1", "user1", "W"⟩], "ctx1"⟩).contexts) m₂.contexts
            = filterNotNamed (namesO (rename_admin
                ⟨some [⟨"c1", "", "C"⟩], some [⟨"u1", "", "V"⟩],
                 some [⟨"ctx1", "user1", "W"⟩], "ctx1"⟩).contexts)
              (none : Option (List Entry))) := by
  refine ⟨rfl, rfl, ?_⟩
  exact merge_twice_replace_unique_and_untouched
    ⟨some [⟨"old", "", "X"⟩], some [⟨"u0", "", "U"⟩], none, "ctx"⟩
    ⟨some [⟨"c1", "", "C"⟩], some [⟨"u1", "", "V"⟩],
     some [⟨"ctx1", "user1", "W"⟩], "ctx1"⟩ false false
    rfl rfl rfl rfl rfl rfl

end ConnectedK8s
